import Mathlib

/-!
# Verification of the SEO extractor (`scrape_seo.py`)

Shallow embedding of the metadata-extraction / meta-view-rendering pipeline
of `scrape_seo.py`.  Parsed HTML documents are modelled as the tree the
BeautifulSoup `html.parser` adapter hands the program: a `Doc` is an optional
head (a list of tags in document order) followed by the remaining body tags.
The adapter lowercases tag and attribute names (HTML parsing) and normalizes
the multi-valued `rel` attribute to a whitespace-token list; `mkTag` performs
the name lowercasing, `Tag.relList` the token splitting.
-/

namespace SeoExtractor

/-- A parsed HTML element as the program sees it: tag name, attribute list
(in source order, names already lowercased by the parser), and the single
text child that BeautifulSoup's `.string` reports (`none` when absent). -/
structure Tag where
  name : String
  attrs : List (String × String)
  text : Option String
deriving DecidableEq, Repr

/-- `tag.get(key)`: first attribute with that name, `none` when absent. -/
def Tag.getAttr (t : Tag) (k : String) : Option String :=
  (t.attrs.find? (fun p => p.1 == k)).map (fun p => p.2)

/-- A parsed document: optional head section (its tags in document order)
and the remaining tags.  Head tags precede body tags in document order. -/
structure Doc where
  headTags : Option (List Tag)
  bodyTags : List Tag
deriving DecidableEq, Repr

/-- All tags of the document in document order (`soup.find_all` traversal). -/
def Doc.allTags (d : Doc) : List Tag :=
  d.headTags.getD [] ++ d.bodyTags

/-- Python whitespace for `str.strip()` and `\s` (ASCII range). -/
def isPySpace (c : Char) : Bool :=
  c == ' ' || c == '\t' || c == '\n' || c == '\r' || c == '\x0b' || c == '\x0c'

/-- Python `str.strip()`: drop leading and trailing whitespace. -/
def pyStrip (s : String) : String :=
  ⟨((s.data.dropWhile isPySpace).reverse.dropWhile isPySpace).reverse⟩

/-- Python `str.lower()` on the ASCII letters the program compares. -/
def lowerChar (c : Char) : Char :=
  if 'A' ≤ c && c ≤ 'Z' then Char.ofNat (c.toNat + 32) else c

/-- Python `str.lower()`. -/
def strLower (s : String) : String :=
  ⟨s.data.map lowerChar⟩

/-- Accumulating scanner for maximal non-whitespace runs (`\S+`). -/
def tokensAux : List Char → List Char → List String
  | [], acc => if acc.isEmpty then [] else [⟨acc.reverse⟩]
  | c :: cs, acc =>
      if isPySpace c then
        if acc.isEmpty then tokensAux cs [] else ⟨acc.reverse⟩ :: tokensAux cs []
      else tokensAux cs (c :: acc)

/-- Whitespace-token split of an attribute value: BeautifulSoup normalizes
cdata-list attributes with `\S+` runs, so empty pieces are dropped. -/
def splitTokens (s : String) : List String :=
  tokensAux s.data []

/-- Parser-adapter construction: HTML parsing lowercases tag and attribute
names (so `REL="Canonical"` reaches the program as attribute `rel`). -/
def mkTag (n : String) (attrs : List (String × String)) (txt : Option String) : Tag :=
  ⟨strLower n, attrs.map (fun p => (strLower p.1, p.2)), txt⟩

/-- `link.get("rel")` under the `html.parser` adapter: `rel` is multi-valued,
so the value is the token list (or `none` when the attribute is absent). -/
def Tag.relList (t : Tag) : Option (List String) :=
  (t.getAttr "rel").map splitTokens

/-! ## Filename sanitizer (`sanitize_filename`) -/

/-- Characters allowed by the class `[A-Za-z0-9._-]`. -/
def safeChar (c : Char) : Bool :=
  (('A' ≤ c && c ≤ 'Z') || ('a' ≤ c && c ≤ 'z') || ('0' ≤ c && c ≤ '9')
    || c == '.' || c == '_' || c == '-')

/-- `re.sub(r"^https?://", "", url)`: the anchored pattern strips one leading
`http://` or `https://` scheme (greedy `s?`, so `https://` wins when both fit). -/
def stripSchemeL : List Char → List Char
  | 'h' :: 't' :: 't' :: 'p' :: 's' :: ':' :: '/' :: '/' :: rest => rest
  | 'h' :: 't' :: 't' :: 'p' :: ':' :: '/' :: '/' :: rest => rest
  | l => l

/-- `cleaned.replace("/", "_")`. -/
def slashToUnderscore (l : List Char) : List Char :=
  l.map (fun c => if c = '/' then '_' else c)

/-- `re.sub(r"[^A-Za-z0-9._-]", "_", cleaned)`. -/
def unsafeToUnderscore (l : List Char) : List Char :=
  l.map (fun c => if safeChar c then c else '_')

/-- `sanitize_filename` on the character list. -/
def sanitizeL (l : List Char) : List Char :=
  let cleaned := unsafeToUnderscore (slashToUnderscore (stripSchemeL l))
  if cleaned = [] then "screenshot".data else cleaned

/-- `sanitize_filename(url)` from `scrape_seo.py`. -/
def sanitize_filename (s : String) : String :=
  ⟨sanitizeL s.data⟩

/-- The post-condition `^[A-Za-z0-9._-]+$`: non-empty and every char safe. -/
def matchesSafeClass (s : String) : Prop :=
  s.data ≠ [] ∧ ∀ c ∈ s.data, safeChar c = true

/-! ## Render geometry (`screenshot_meta_view`, lines 234-247) -/

/-- `max(800, min(height_int + 100, 6000))`. -/
def resolve_height (h : Int) : Int :=
  max 800 (min (h + 100) 6000)

/-- The measurement outcome handed to the resize logic: `.error` when
`driver.execute_script` itself throws, `.ok none` when it returns a value
that `int()` cannot convert, `.ok (some h)` for an integer height `h`. -/
abbrev Measurement := Except Unit (Option Int)

/-- The viewport actually set by `screenshot_meta_view`:
`none` when the outer `try` swallows a throwing height query (the
`except Exception: pass` skips the resize entirely), otherwise
`some (width, height)` per `driver.set_window_size(1920, height_int)`,
where a failed `int()` conversion falls back to 1200 before the clamp. -/
def meta_view_resize (m : Measurement) : Option (Int × Int) :=
  match m with
  | .error _ => none
  | .ok v =>
      let h := v.getD 1200
      some (1920, resolve_height h)

/-! ## Metadata extractor (`extract_meta`, lines 134-169) -/

/-- Match of `soup.find("meta", attrs={"name": name})`. -/
def metaNameIs (n : String) (t : Tag) : Bool :=
  t.name == "meta" && t.getAttr "name" == some n

/-- Match of `soup.find("meta", attrs={"property": prop})`. -/
def metaPropIs (p : String) (t : Tag) : Bool :=
  t.name == "meta" && t.getAttr "property" == some p

/-- `get_meta_by_name`: content of the first matching meta tag, trimmed;
`tag.get("content", "")` defaults an absent attribute to the empty string. -/
def get_meta_by_name (d : Doc) (n : String) : String :=
  match d.allTags.find? (metaNameIs n) with
  | some t => pyStrip ((t.getAttr "content").getD "")
  | none => ""

/-- `get_meta_by_property`. -/
def get_meta_by_property (d : Doc) (p : String) : String :=
  match d.allTags.find? (metaPropIs p) with
  | some t => pyStrip ((t.getAttr "content").getD "")
  | none => ""

/-- The loop body of `get_canonical` over `soup.find_all("link")`:
skip links with an absent or falsy (empty-list) `rel`; on the first link
whose lowercased rel tokens contain `"canonical"`, return its trimmed
`href` (defaulting to `""`). -/
def canonicalOfLinks : List Tag → String
  | [] => ""
  | l :: ls =>
      match l.relList with
      | none => canonicalOfLinks ls
      | some rel =>
          if rel.isEmpty then canonicalOfLinks ls
          else if (rel.map strLower).contains "canonical" then
            pyStrip ((l.getAttr "href").getD "")
          else canonicalOfLinks ls

/-- `get_canonical` from `extract_meta`. -/
def get_canonical (d : Doc) : String :=
  canonicalOfLinks (d.allTags.filter (fun t => t.name == "link"))

/-- `soup.title.string.strip() if soup.title and soup.title.string else ""`. -/
def titleText (d : Doc) : String :=
  match d.allTags.find? (fun t => t.name == "title") with
  | none => ""
  | some t =>
      match t.text with
      | none => ""
      | some s => pyStrip s

/-- `extract_meta(soup, url)`: the result dict as an insertion-ordered
key/value list.  Python's `a or b` on strings yields `b` exactly when `a`
is empty. -/
def extract_meta (d : Doc) (url : String) : List (String × String) :=
  [("url", url),
   ("title", titleText d),
   ("description",
     let dn := get_meta_by_name d "description"
     if dn == "" then get_meta_by_property d "og:description" else dn),
   ("keywords", get_meta_by_name d "keywords"),
   ("canonical", get_canonical d),
   ("og:title", get_meta_by_property d "og:title"),
   ("og:url", get_meta_by_property d "og:url"),
   ("robots", get_meta_by_name d "robots")]

/-! ## Head-markup collector (`collect_head_meta_markup`, lines 172-191) -/

/-- Serialization of a tag back to markup (`str(tag)`): attributes in
source order; a tag with a text child closes around it, a void tag
self-closes. -/
def renderTag (t : Tag) : String :=
  let attrsStr := String.join (t.attrs.map (fun p => " " ++ p.1 ++ "=\"" ++ p.2 ++ "\""))
  match t.text with
  | some s => "<" ++ t.name ++ attrsStr ++ ">" ++ s ++ "</" ++ t.name ++ ">"
  | none => "<" ++ t.name ++ attrsStr ++ "/>"

/-- The fixed rel allow-set of `collect_head_meta_markup`. -/
def allowedRel (r : String) : Bool :=
  ["canonical", "alternate", "preload", "manifest", "icon"].contains r

/-- The link loop of `collect_head_meta_markup`: skip absent/falsy `rel`,
keep links whose lowercased tokens meet the allow-set. -/
def linkLines : List Tag → List String
  | [] => []
  | l :: ls =>
      match l.relList with
      | none => linkLines ls
      | some rel =>
          if rel.isEmpty then linkLines ls
          else if (rel.map strLower).any allowedRel then
            renderTag l :: linkLines ls
          else linkLines ls

/-- `collect_head_meta_markup(soup)`: empty string without a head;
otherwise title line (if a title exists in the head), then all head meta
tags, then the allow-listed head links, joined with newlines. -/
def collect_head_meta_markup (d : Doc) : String :=
  match d.headTags with
  | none => ""
  | some hts =>
      let titleLs : List String :=
        match hts.find? (fun t => t.name == "title") with
        | some t => [renderTag t]
        | none => []
      let metaLs := (hts.filter (fun t => t.name == "meta")).map renderTag
      let linkLs := linkLines (hts.filter (fun t => t.name == "link"))
      String.intercalate "\n" (titleLs ++ metaLs ++ linkLs)

/-! ## Meta-view document builder (`build_meta_view_html`, lines 194-225) -/

/-- Python `html.escape` (quote=True) acts independently on each character. -/
def escapeChar (c : Char) : String :=
  if c = '&' then "&amp;"
  else if c = '<' then "&lt;"
  else if c = '>' then "&gt;"
  else if c = '"' then "&quot;"
  else if c = '\'' then "&#x27;"
  else String.singleton c

/-- `html.escape` over the character list. -/
def escL : List Char → List Char
  | [] => []
  | c :: cs => (escapeChar c).data ++ escL cs

/-- `html.escape(s)`: each character is replaced independently. -/
def htmlEscape (s : String) : String :=
  ⟨escL s.data⟩

/-- Literal text of the f-string up to the first `{html.escape(url)}` hole. -/
def mvSeg1 : String :=
  "\n<!DOCTYPE html>\n<html>\n  <head>\n    <meta charset=\"utf-8\" />\n    <title>Meta tags - "

/-- Literal text between the title hole and the heading `{html.escape(url)}` hole. -/
def mvSeg2 : String :=
  "</title>\n    <style>\n      html, body \x7b margin: 0; padding: 0; background: #0b0e14; \x7d\n      body \x7b font-family: ui-monospace, SFMono-Regular, Menlo, Monaco, Consolas, \x27Liberation Mono\x27, \x27Courier New\x27, monospace; color: #e6e1cf; \x7d\n      header \x7b padding: 16px 20px; border-bottom: 1px solid #1f2430; position: sticky; top: 0; background: #0b0e14; z-index: 1; \x7d\n      h1 \x7b font-size: 16px; margin: 0; color: #f0f0f0; \x7d\n      main \x7b padding: 16px 20px 40px; \x7d\n      pre \x7b white-space: pre-wrap; word-break: break-word; line-height: 1.4; \x7d\n      code \x7b color: #e6e1cf; \x7d\n      .tag \x7b color: #ffcc66; \x7d\n      .attr \x7b color: #5ccfe6; \x7d\n      .val \x7b color: #bae67e; \x7d\n    </style>\n  </head>\n  <body>\n    <header>\n      <h1>Meta tags for "

/-- Literal text between the heading hole and the `{escaped}` hole. -/
def mvSeg3 : String :=
  "</h1>\n    </header>\n    <main>\n      <pre><code>"

/-- Literal text after the `{escaped}` hole. -/
def mvSeg4 : String :=
  "</code></pre>\n    </main>\n  </body>\n </html>\n"

/-- `mvSeg1` up to the `<title>` text. -/
def mvPre1 : String := "\n<!DOCTYPE html>\n<html>\n  <head>\n    <meta charset=\"utf-8\" />\n    "

def mvRest2 : String :=
  "\n    <style>\n      html, body \x7b margin: 0; padding: 0; background: #0b0e14; \x7d\n      body \x7b font-family: ui-monospace, SFMono-Regular, Menlo, Monaco, Consolas, \x27Liberation Mono\x27, \x27Courier New\x27, monospace; color: #e6e1cf; \x7d\n      header \x7b padding: 16px 20px; border-bottom: 1px solid #1f2430; position: sticky; top: 0; background: #0b0e14; z-index: 1; \x7d\n      h1 \x7b font-size: 16px; margin: 0; color: #f0f0f0; \x7d\n      main \x7b padding: 16px 20px 40px; \x7d\n      pre \x7b white-space: pre-wrap; word-break: break-word; line-height: 1.4; \x7d\n      code \x7b color: #e6e1cf; \x7d\n      .tag \x7b color: #ffcc66; \x7d\n      .attr \x7b color: #5ccfe6; \x7d\n      .val \x7b color: #bae67e; \x7d\n    </style>\n  </head>\n  <body>\n    <header>\n      <h1>Meta tags for "

def mvFront2 : String :=
  "</title>\n    <style>\n      html, body \x7b margin: 0; padding: 0; background: #0b0e14; \x7d\n      body \x7b font-family: ui-monospace, SFMono-Regular, Menlo, Monaco, Consolas, \x27Liberation Mono\x27, \x27Courier New\x27, monospace; color: #e6e1cf; \x7d\n      header \x7b padding: 16px 20px; border-bottom: 1px solid #1f2430; position: sticky; top: 0; background: #0b0e14; z-index: 1; \x7d\n      h1 \x7b font-size: 16px; margin: 0; color: #f0f0f0; \x7d\n      main \x7b padding: 16px 20px 40px; \x7d\n      pre \x7b white-space: pre-wrap; word-break: break-word; line-height: 1.4; \x7d\n      code \x7b color: #e6e1cf; \x7d\n      .tag \x7b color: #ffcc66; \x7d\n      .attr \x7b color: #5ccfe6; \x7d\n      .val \x7b color: #bae67e; \x7d\n    </style>\n  </head>\n  <body>\n    <header>\n      "

def mvRest3 : String :=
  "\n    </header>\n    <main>\n      <pre><code>"

def mvFront3 : String :=
  "</h1>\n    </header>\n    <main>\n      "

def mvRest4 : String :=
  "\n    </main>\n  </body>\n </html>\n"

/-- `build_meta_view_html(url, meta_markup)`: the f-string document. -/
def build_meta_view_html (url meta_markup : String) : String :=
  mvSeg1 ++ htmlEscape url ++ mvSeg2 ++ htmlEscape url ++ mvSeg3
    ++ htmlEscape meta_markup ++ mvSeg4

/-- `sub` occurs contiguously inside `s`. -/
def containsStr (s sub : String) : Prop :=
  ∃ a b : List Char, s.data = a ++ sub.data ++ b

/-! ## Per-URL processing and the batch loop (`main`, lines 283-321) -/

/-- A result record: the Python dict as an insertion-ordered key/value list. -/
abbrev Record := List (String × String)

/-- The body of `main`'s per-URL `try`.  The external effects —
`driver.get`, the page-source parse, and the full-page screenshot —
either deliver a parsed document or raise, which `fetchDoc` models; the
nested `try` around `screenshot_meta_view` is modelled by `metaShot`,
whose failure only blanks the `meta_screenshot` field.  On a raising
`fetchDoc` the record is the error variant `{url, error, screenshot: ""}`. -/
def processUrl (fetchDoc : String → Except String Doc)
    (metaShot : String → Except String String)
    (screenshotsDir : String) (url : String) : Record :=
  match fetchDoc url with
  | .error e => [("url", url), ("error", e), ("screenshot", "")]
  | .ok doc =>
      let screenshotPath := screenshotsDir ++ "/" ++ sanitize_filename url ++ ".png"
      let metaPath := match metaShot url with
        | .ok p => p
        | .error _ => ""
      extract_meta doc url ++ [("screenshot", screenshotPath), ("meta_screenshot", metaPath)]

/-- `main`'s loop over the URL list: every URL is processed, a failure is
appended as the error variant and the loop continues. -/
def processBatch (fetchDoc : String → Except String Doc)
    (metaShot : String → Except String String)
    (screenshotsDir : String) (urls : List String) : List Record :=
  urls.map (processUrl fetchDoc metaShot screenshotsDir)

/-! ## CSV serialization (`write_csv`, lines 255-262)

`csv.DictWriter(f, fieldnames=fieldnames)` keeps the defaults
`extrasaction="raise"` and `restval=None`: a row key outside `fieldnames`
raises `ValueError`, a missing key renders as the empty cell. -/

/-- `DictWriter._dict_to_list(rowdict)`: raise on extra keys, otherwise
emit cells in header order with `""` for missing keys. -/
def dictToRow (fieldnames : List String) (row : Record) : Except String (List String) :=
  if (row.map (fun p => p.1)).all (fun k => fieldnames.contains k) then
    .ok (fieldnames.map (fun k => ((row.find? (fun p => p.1 == k)).map (fun p => p.2)).getD ""))
  else
    .error "dict contains fields not in fieldnames"

/-- `write_csv(rows, path)`: no output on an empty list; otherwise a header
from the first row's keys and one data row per record, `.error` when
`DictWriter.writerows` raises. -/
def write_csv (rows : List Record) : Except String (Option (List String × List (List String))) :=
  match rows with
  | [] => .ok none
  | first :: _ =>
      let fieldnames := first.map (fun p => p.1)
      match rows.mapM (dictToRow fieldnames) with
      | .ok out => .ok (some (fieldnames, out))
      | .error e => .error e

/-! ## Spec-side formulations (for refinement comparisons)

These two definitions follow the specification's words rather than the
source's loop structure; the theorems below compare them with the
source-derived definitions. -/

/-- Spec wording: the link's `rel` attribute, compared case-insensitively
and treated as a set of tokens, contains the token `"canonical"`. -/
def canonMatch (t : Tag) : Bool :=
  ((splitTokens ((t.getAttr "rel").getD "")).map strLower).contains "canonical"

/-- Spec wording for `canonical`: trimmed `href` of the first `<link>` in
document order whose rel token set contains `"canonical"`; `""` without
such a link. -/
def canonicalSpec (d : Doc) : String :=
  match (d.allTags.filter (fun t => t.name == "link")).find? canonMatch with
  | some t => pyStrip ((t.getAttr "href").getD "")
  | none => ""

/-- Spec wording: the link's rel token set (case-insensitively) intersects
the allow-set `{canonical, alternate, preload, manifest, icon}`. -/
def linkAllowedSpec (t : Tag) : Bool :=
  ((splitTokens ((t.getAttr "rel").getD "")).map strLower).any allowedRel

/-- Spec wording for the collected fragment: empty for a head-less
document; otherwise the title tag first (if present), then every `<meta>`
tag in document order, then every `<link>` tag in document order whose rel
set intersects the allow-set. -/
def collectSpec (d : Doc) : String :=
  match d.headTags with
  | none => ""
  | some hts =>
      String.intercalate "\n"
        (((hts.find? (fun t => t.name == "title")).toList.map renderTag)
          ++ (hts.filter (fun t => t.name == "meta")).map renderTag
          ++ (hts.filter (fun t => linkAllowedSpec t && t.name == "link")).map renderTag)

/-! ## Concrete fixtures -/

/-- Head with a title and a multi-valued `rel="canonical alternate"` link. -/
def exMultiRel : Doc :=
  ⟨some [mkTag "title" [] (some " T "),
         mkTag "link" [("rel", "canonical alternate"), ("href", " https://example.com/page ")] none],
   []⟩

/-- Head with an uppercase `REL="Canonical"` link (parser lowercases the
attribute name; the value is matched case-insensitively). -/
def exUpperRel : Doc :=
  ⟨some [mkTag "link" [("REL", "Canonical"), ("href", "https://example.com/c")] none], []⟩

/-- Head whose only link is not canonical. -/
def exNoCanon : Doc :=
  ⟨some [mkTag "link" [("rel", "stylesheet"), ("href", "style.css")] none], []⟩

/-- Head with a whitespace-only `<meta name="description">` and a populated
`og:description`. -/
def exBlankDesc : Doc :=
  ⟨some [mkTag "meta" [("name", "description"), ("content", "   ")] none,
         mkTag "meta" [("property", "og:description"), ("content", "OG text")] none],
   []⟩

/-- Head with a content-less `<meta name="description">` and a populated
`og:description`. -/
def exNoContentDesc : Doc :=
  ⟨some [mkTag "meta" [("name", "description")] none,
         mkTag "meta" [("property", "og:description"), ("content", " OG2 ")] none],
   []⟩

/-- Head with duplicated `name="description"` and `property="og:title"`
meta tags. -/
def exDupMeta : Doc :=
  ⟨some [mkTag "meta" [("name", "description"), ("content", "first")] none,
         mkTag "meta" [("name", "description"), ("content", "second")] none,
         mkTag "meta" [("property", "og:title"), ("content", "tfirst")] none,
         mkTag "meta" [("property", "og:title"), ("content", "tsecond")] none],
   []⟩

/-- A further duplicate appended behind the document. -/
def dupTagExtra : Tag :=
  mkTag "meta" [("name", "description"), ("content", "third")] none

/-- A head with no title, no meta tags, and no allow-listed link. -/
def exIrrelevantHead : Doc :=
  ⟨some [mkTag "link" [("rel", "stylesheet"), ("href", "s.css")] none,
         mkTag "script" [("src", "a.js")] none], []⟩

/-- The success-record key set, in insertion order. -/
def metadataFields : List String :=
  ["url", "title", "description", "keywords", "canonical", "og:title",
   "og:url", "robots", "screenshot", "meta_screenshot"]

/-- Three-URL batch fixture: the second URL's navigation raises. -/
def urls3 : List String :=
  ["https://a.com", "https://b.com", "https://c.com"]

/-- Fetch behaviour for the fixture: the second URL raises `nav error`. -/
def fetch3 (u : String) : Except String Doc :=
  if u == "https://b.com" then .error "nav error" else .ok exMultiRel

/-- Meta-screenshot behaviour for the fixture: always succeeds. -/
def shot3 (u : String) : Except String String :=
  .ok (sanitize_filename u ++ "_meta.png")

/-- An error-variant record as `main` builds it. -/
def errorRec : Record :=
  [("url", "https://b.com"), ("error", "nav error"), ("screenshot", "")]

/-- A success record built by the embedded per-URL pipeline. -/
def successRec : Record :=
  processUrl (fun _ => .ok exMultiRel) shot3 "shots" "https://a.com"

/-- Head with both a non-empty `name="description"` and an `og:description`. -/
def exBothDesc : Doc :=
  ⟨some [mkTag "meta" [("name", "description"), ("content", " named ")] none,
         mkTag "meta" [("property", "og:description"), ("content", "og val")] none], []⟩

/-- Head with only an `og:description`. -/
def exOnlyOg : Doc :=
  ⟨some [mkTag "meta" [("property", "og:description"), ("content", " og only ")] none], []⟩

/-! ## Refinement lemmas -/

/-- The `get_canonical` loop returns the trimmed href of the first link
satisfying the spec's membership test. -/
theorem canonicalOfLinks_eq_find (links : List Tag) :
    canonicalOfLinks links =
      match links.find? canonMatch with
      | some t => pyStrip ((t.getAttr "href").getD "")
      | none => "" := by
  induction links with
  | nil => rfl
  | cons l ls ih =>
    rw [canonicalOfLinks, List.find?]
    rcases h : l.getAttr "rel" with _ | v
    · have hrl : l.relList = none := by rw [Tag.relList, h]; rfl
      have hcm : canonMatch l = false := by rw [canonMatch, h]; rfl
      rw [hrl, hcm]
      exact ih
    · have hrl : l.relList = some (splitTokens v) := by rw [Tag.relList, h]; rfl
      rw [hrl]
      rcases hrel : splitTokens v with _ | ⟨r, rs⟩
      · have hcm : canonMatch l = false := by rw [canonMatch, h]; simp [hrel]
        rw [hcm]
        simpa using ih
      · rcases hc : ((r :: rs).map strLower).contains "canonical" with _ | _
        · have hcm : canonMatch l = false := by rw [canonMatch, h]; simpa [hrel] using hc
          rw [hcm]
          simp only [List.isEmpty_cons, Bool.false_eq_true, if_false, hc]
          simpa using ih
        · have hcm : canonMatch l = true := by rw [canonMatch, h]; simpa [hrel] using hc
          rw [hcm]
          simp only [List.isEmpty_cons, Bool.false_eq_true, if_false, hc, if_true]

/-- The collector's link loop keeps exactly the spec-allowed links. -/
theorem linkLines_eq_filter (ls : List Tag) :
    linkLines ls = (ls.filter linkAllowedSpec).map renderTag := by
  induction ls with
  | nil => rfl
  | cons l ls ih =>
    rw [linkLines, List.filter]
    rcases h : l.getAttr "rel" with _ | v
    · have hrl : l.relList = none := by rw [Tag.relList, h]; rfl
      have hla : linkAllowedSpec l = false := by rw [linkAllowedSpec, h]; rfl
      rw [hrl, hla]
      exact ih
    · have hrl : l.relList = some (splitTokens v) := by rw [Tag.relList, h]; rfl
      rw [hrl]
      rcases hrel : splitTokens v with _ | ⟨r, rs⟩
      · have hla : linkAllowedSpec l = false := by rw [linkAllowedSpec, h]; simp [hrel]
        rw [hla]
        simpa using ih
      · rcases hc : ((r :: rs).map strLower).any allowedRel with _ | _
        · have hla : linkAllowedSpec l = false := by rw [linkAllowedSpec, h]; simpa [hrel] using hc
          rw [hla]
          simp only [List.isEmpty_cons, Bool.false_eq_true, if_false, hc]
          simpa using ih
        · have hla : linkAllowedSpec l = true := by rw [linkAllowedSpec, h]; simpa [hrel] using hc
          rw [hla]
          rw [List.map_cons] at hc
          simp only [List.isEmpty_cons, Bool.false_eq_true, if_false, hc, if_true, List.map_cons]
          exact congrArg _ ih

/-- The collector agrees with the spec's description of the fragment. -/
theorem collect_eq_spec (d : Doc) : collect_head_meta_markup d = collectSpec d := by
  rw [collect_head_meta_markup, collectSpec]
  rcases d.headTags with _ | hts
  · rfl
  · simp only [linkLines_eq_filter, List.filter_filter]
    rcases hft : List.find? (fun t => t.name == "title") hts with _ | t <;> rw [hft] <;> rfl

/-- `get_canonical` agrees with the spec's first-match description. -/
theorem get_canonical_eq_spec (d : Doc) : get_canonical d = canonicalSpec d := by
  rw [get_canonical, canonicalSpec]
  exact canonicalOfLinks_eq_find _


/-! ## Helper lemmas -/

/-- Strings with equal character data are equal. -/
theorem str_ext {s t : String} (h : s.data = t.data) : s = t := by
  cases s; cases t; exact congrArg String.mk h

/-- Exhibiting a decomposition proves containment. -/
theorem containsStr_intro (a b : String) {s sub : String} (h : s = a ++ sub ++ b) :
    containsStr s sub :=
  ⟨a.data, b.data, by simp [h, String.data_append]⟩

/-! Decompositions of the literal segments of the meta-view document. -/


set_option maxRecDepth 8192 in
theorem mvSeg1_split : mvSeg1 = mvPre1 ++ "<title>Meta tags - " := by decide

set_option maxRecDepth 8192 in
theorem mvSeg2_split1 : mvSeg2 = "</title>" ++ mvRest2 := by decide

set_option maxRecDepth 8192 in
theorem mvSeg2_split2 : mvSeg2 = mvFront2 ++ "<h1>Meta tags for " := by decide

set_option maxRecDepth 8192 in
theorem mvSeg3_split1 : mvSeg3 = "</h1>" ++ mvRest3 := by decide

set_option maxRecDepth 8192 in
theorem mvSeg3_split2 : mvSeg3 = mvFront3 ++ "<pre><code>" := by decide

set_option maxRecDepth 8192 in
theorem mvSeg4_split : mvSeg4 = "</code></pre>" ++ mvRest4 := by decide

/-- No escaped character expands to text containing `<` or `>`. -/
theorem escapeChar_no_markup (a : Char) :
    '<' ∉ (escapeChar a).data ∧ '>' ∉ (escapeChar a).data := by
  rw [escapeChar]
  split
  · exact ⟨by decide, by decide⟩
  · split
    · exact ⟨by decide, by decide⟩
    · split
      · exact ⟨by decide, by decide⟩
      · split
        · exact ⟨by decide, by decide⟩
        · split
          · exact ⟨by decide, by decide⟩
          · rename_i h1 h2 h3 h4 h5
            refine ⟨fun hmem => ?_, fun hmem => ?_⟩
            · exact h2 (List.mem_singleton.1 hmem).symm
            · exact h3 (List.mem_singleton.1 hmem).symm

/-- Escaped text contains no live markup delimiters. -/
theorem escL_no_markup (l : List Char) : ∀ c ∈ escL l, c ≠ '<' ∧ c ≠ '>' := by
  induction l with
  | nil => intro c hc; simp [escL] at hc
  | cons a l ih =>
    intro c hc
    rw [escL] at hc
    rcases List.mem_append.1 hc with h | h
    · obtain ⟨h1, h2⟩ := escapeChar_no_markup a
      exact ⟨fun e => h1 (e ▸ h), fun e => h2 (e ▸ h)⟩
    · exact ih c h

/-- Every character emitted by the final substitution is in the safe class. -/
theorem safe_of_mem_unsafeToUnderscore (l : List Char) :
    ∀ c ∈ unsafeToUnderscore l, safeChar c = true := by
  intro c hc
  rcases List.mem_map.1 hc with ⟨x, _, rfl⟩
  by_cases h : safeChar x = true
  · simp [h]
  · simp only [Bool.not_eq_true] at h
    simp only [h, Bool.false_eq_true, if_false]
    decide

/-- A scheme prefix needs a `:`, which the safe class excludes. -/
theorem stripSchemeL_of_safe (l : List Char) (h : ∀ c ∈ l, safeChar c = true) :
    stripSchemeL l = l := by
  unfold stripSchemeL
  split
  · exfalso
    have := h ':' (by simp)
    simp [safeChar] at this
  · exfalso
    have := h ':' (by simp)
    simp [safeChar] at this
  · rfl

/-- Slash replacement fixes strings made of safe characters. -/
theorem slashToUnderscore_of_safe (l : List Char) (h : ∀ c ∈ l, safeChar c = true) :
    slashToUnderscore l = l := by
  induction l with
  | nil => rfl
  | cons a l ih =>
    have ha : safeChar a = true := h a (by simp)
    have hna : a ≠ '/' := by rintro rfl; simp [safeChar] at ha
    simp only [slashToUnderscore, List.map_cons, if_neg hna]
    have := ih (fun c hc => h c (by simp [hc]))
    simpa [slashToUnderscore] using this

/-- The class substitution fixes strings made of safe characters. -/
theorem unsafeToUnderscore_of_safe (l : List Char) (h : ∀ c ∈ l, safeChar c = true) :
    unsafeToUnderscore l = l := by
  induction l with
  | nil => rfl
  | cons a l ih =>
    have ha : safeChar a = true := h a (by simp)
    simp only [unsafeToUnderscore, List.map_cons, if_pos ha]
    have := ih (fun c hc => h c (by simp [hc]))
    simpa [unsafeToUnderscore] using this

/-- The sanitizer's output is non-empty and within the safe class. -/
theorem sanitizeL_safe (l : List Char) :
    sanitizeL l ≠ [] ∧ ∀ c ∈ sanitizeL l, safeChar c = true := by
  rw [sanitizeL]
  split
  · exact ⟨by decide, by decide⟩
  · rename_i hne
    exact ⟨hne, safe_of_mem_unsafeToUnderscore _⟩

/-- One pass already normalizes: a second pass is the identity. -/
theorem sanitizeL_idem (l : List Char) : sanitizeL (sanitizeL l) = sanitizeL l := by
  obtain ⟨hne, hsafe⟩ := sanitizeL_safe l
  rw [sanitizeL, stripSchemeL_of_safe _ hsafe, slashToUnderscore_of_safe _ hsafe,
    unsafeToUnderscore_of_safe _ hsafe, if_neg hne]

/-! ## Claim theorems -/

/-- Claim C1: for every parsed document, the extracted `canonical` field
equals the trimmed href of the first `<link>` in document order whose rel
attribute — case-insensitively, treated as a token set — contains
`"canonical"` (`""` when no such link exists); in particular
`rel="canonical alternate"` and `REL="Canonical"` links populate the field,
while a non-canonical link leaves it empty. -/
theorem canonical_field_spec :
    (∀ (d : Doc) (url : String),
        (extract_meta d url).lookup "canonical" = some (canonicalSpec d)) ∧
    (extract_meta exMultiRel "u").lookup "canonical" = some "https://example.com/page" ∧
    (extract_meta exUpperRel "u").lookup "canonical" = some "https://example.com/c" ∧
    (extract_meta exNoCanon "u").lookup "canonical" = some "" := by
  refine ⟨fun d url => ?_, rfl, rfl, rfl⟩
  rw [show (extract_meta d url).lookup "canonical" = some (get_canonical d) from rfl,
    get_canonical_eq_spec]

/-- Claim C2, counterexample: with `<meta name="description" content="   ">`
present (trimmed content empty) and `og:description` `"OG text"`, the
extracted description is `"OG text"` — not the present tag's trimmed content
`""` as the claim requires. -/
theorem description_presence_counterexample :
    (extract_meta exBlankDesc "u").lookup "description" = some "OG text" ∧
    (exBlankDesc.allTags.find? (metaNameIs "description")).isSome = true ∧
    pyStrip "   " = "" ∧
    ("OG text" : String) ≠ "" := ⟨rfl, rfl, rfl, by decide⟩

/-- Claim C2 as amended: the description equals the trimmed content of the
first `<meta name="description">` whenever that trimmed value is non-empty;
otherwise (tag absent, or content absent/empty/whitespace-only) it equals
the `og:description` value.  With both present and the name value non-empty
the `name="description"` tag wins; with only `og:description` present the
og value is returned. -/
theorem description_resolution_amended :
    (∀ (d : Doc) (url : String),
      (extract_meta d url).lookup "description" =
        some (if get_meta_by_name d "description" == "" then
                get_meta_by_property d "og:description"
              else get_meta_by_name d "description")) ∧
    (extract_meta exBothDesc "u").lookup "description" = some "named" ∧
    (extract_meta exOnlyOg "u").lookup "description" = some "og only" :=
  ⟨fun _ _ => rfl, rfl, rfl⟩

/-- Claim C3, counterexample: when the height query itself throws, the
`except ...: pass` skips the resize entirely — no viewport is set, rather
than the claimed fixed fallback of 1200 (which would give 1920 × 1300). -/
theorem resize_fallback_counterexample :
    meta_view_resize (Except.error ()) = none ∧
    meta_view_resize (Except.error ()) ≠ some (1920, resolve_height 1200) ∧
    resolve_height 1200 = 1300 := by
  refine ⟨rfl, ?_, by decide⟩
  intro h
  simp [meta_view_resize] at h

/-- Claim C3 as amended: for an integer measured height `h` the viewport is
`clamp(h+100, 800, 6000)` at width 1920 (`resolve(500)=800`,
`resolve(700)=800`, `resolve(2000)=2100`, `resolve(10000)=6000`); a reported
value that fails integer conversion falls back to 1200 (viewport 1300); a
throwing height query skips the resize entirely; whenever a resize occurs
its height lies in `[800, 6000]` and its width is 1920. -/
theorem resize_geometry_amended :
    (∀ h : Int, meta_view_resize (.ok (some h)) = some (1920, resolve_height h)) ∧
    resolve_height 500 = 800 ∧ resolve_height 700 = 800 ∧
    resolve_height 2000 = 2100 ∧ resolve_height 10000 = 6000 ∧
    meta_view_resize (.ok none) = some (1920, 1300) ∧
    meta_view_resize (.error ()) = none ∧
    (∀ (m : Measurement) (p : Int × Int), meta_view_resize m = some p →
      p.1 = 1920 ∧ 800 ≤ p.2 ∧ p.2 ≤ 6000) := by
  refine ⟨fun h => rfl, by decide, by decide, by decide, by decide, by decide, rfl, ?_⟩
  rintro m p hm
  rcases m with e | v
  · simp [meta_view_resize] at hm
  · rw [meta_view_resize] at hm
    rcases Option.some.inj hm with rfl
    refine ⟨rfl, le_max_left _ _, max_le (by norm_num) (min_le_right _ _)⟩

/-- Witness for the amended C3 theorem at the measured height 500. -/
theorem resize_geometry_amended_witness :
    ((1920 : Int), resolve_height 500).1 = 1920 ∧
    (800 : Int) ≤ ((1920 : Int), resolve_height 500).2 ∧
    ((1920 : Int), resolve_height 500).2 ≤ 6000 :=
  resize_geometry_amended.2.2.2.2.2.2.2 (.ok (some 500)) (1920, resolve_height 500) rfl

/-- Claim C4: the collected head fragment is the title tag first (if
present), then every head `<meta>` tag in document order, then every head
`<link>` whose rel token set intersects
`{canonical, alternate, preload, manifest, icon}`; a document without a head
yields the empty fragment, and a head with no title, no metas and no allowed
links serializes to the empty string. -/
theorem collect_fragment_spec :
    (∀ d : Doc, collect_head_meta_markup d = collectSpec d) ∧
    collect_head_meta_markup ⟨none, [mkTag "p" [] (some "x")]⟩ = "" ∧
    collect_head_meta_markup exIrrelevantHead = "" :=
  ⟨collect_eq_spec, rfl, rfl⟩

/-- Claim C5: the built meta-view document contains the fragment
HTML-escaped inside a `<pre><code>` block and the escaped URL in both the
`<title>` and the visible `<h1>` heading; the escaped text contains no `<`
or `>`, so the fragment can never be parsed as live markup. -/
theorem meta_view_document_spec (url markup : String) :
    containsStr (build_meta_view_html url markup)
      ("<pre><code>" ++ htmlEscape markup ++ "</code></pre>") ∧
    containsStr (build_meta_view_html url markup)
      ("<title>Meta tags - " ++ htmlEscape url ++ "</title>") ∧
    containsStr (build_meta_view_html url markup)
      ("<h1>Meta tags for " ++ htmlEscape url ++ "</h1>") ∧
    (∀ c ∈ (htmlEscape markup).data, c ≠ '<' ∧ c ≠ '>') := by
  refine ⟨?_, ?_, ?_, escL_no_markup _⟩
  · refine containsStr_intro (mvSeg1 ++ htmlEscape url ++ mvSeg2 ++ htmlEscape url ++ mvFront3)
      mvRest4 ?_
    rw [build_meta_view_html, mvSeg3_split2, mvSeg4_split]
    apply str_ext
    simp [String.data_append, List.append_assoc]
  · refine containsStr_intro mvPre1
      (mvRest2 ++ htmlEscape url ++ mvSeg3 ++ htmlEscape markup ++ mvSeg4) ?_
    rw [build_meta_view_html, mvSeg1_split, mvSeg2_split1]
    apply str_ext
    simp [String.data_append, List.append_assoc]
  · refine containsStr_intro (mvSeg1 ++ htmlEscape url ++ mvFront2)
      (mvRest3 ++ htmlEscape markup ++ mvSeg4) ?_
    rw [build_meta_view_html, mvSeg2_split2, mvSeg3_split1]
    apply str_ext
    simp [String.data_append, List.append_assoc]

/-- Claim C6: the batch yields exactly one record per URL in input order; a
URL whose processing raises becomes the error-variant record
`{url, error, screenshot: ""}` and processing continues, while a successful
URL yields a record carrying the full metadata key set. -/
theorem batch_one_record_per_url (fetch : String → Except String Doc)
    (shot : String → Except String String) (dir : String) (urls : List String) :
    (processBatch fetch shot dir urls).length = urls.length ∧
    (∀ (i : Nat) (url : String), urls[i]? = some url →
      (processBatch fetch shot dir urls)[i]? = some (processUrl fetch shot dir url)) ∧
    (∀ url e, fetch url = .error e →
      processUrl fetch shot dir url = [("url", url), ("error", e), ("screenshot", "")]) ∧
    (∀ url d, fetch url = .ok d →
      (processUrl fetch shot dir url).map Prod.fst = metadataFields) := by
  refine ⟨by simp [processBatch], fun i url hi => ?_, fun url e he => ?_, fun url d hd => ?_⟩
  · rw [processBatch, List.getElem?_map, hi]
    rfl
  · rw [processUrl, he]
  · rw [processUrl, hd]
    simp [extract_meta, metadataFields]

/-- Witness for C6: three URLs, the second raising `nav error` — three
records, the second the error variant, the first and third well-formed. -/
theorem batch_one_record_per_url_witness :
    (processBatch fetch3 shot3 "shots" urls3).length = 3 ∧
    (processBatch fetch3 shot3 "shots" urls3)[1]? = some errorRec ∧
    (processUrl fetch3 shot3 "shots" "https://a.com").map Prod.fst = metadataFields ∧
    (processUrl fetch3 shot3 "shots" "https://c.com").map Prod.fst = metadataFields := by
  obtain ⟨hlen, hidx, herr, hok⟩ := batch_one_record_per_url fetch3 shot3 "shots" urls3
  refine ⟨hlen, ?_, hok "https://a.com" exMultiRel rfl, hok "https://c.com" exMultiRel rfl⟩
  rw [hidx 1 "https://b.com" rfl, herr "https://b.com" "nav error" rfl]
  rfl

/-- Claim C7 (code bug): mixing a success record and an error-variant record
makes `write_csv` raise — `csv.DictWriter` keeps its `extrasaction="raise"`
default, so a row key outside the first record's header raises `ValueError`
in either order; only missing keys (uniform shapes) render as empty cells. -/
theorem write_csv_mixed_raises :
    write_csv [successRec, errorRec] = .error "dict contains fields not in fieldnames" ∧
    write_csv [errorRec, successRec] = .error "dict contains fields not in fieldnames" ∧
    write_csv [errorRec, [("url", "https://d.com")]] =
      .ok (some (["url", "error", "screenshot"],
        [["https://b.com", "nav error", ""], ["https://d.com", "", ""]])) :=
  ⟨rfl, rfl, rfl⟩

/-- Claim C8: `sanitize_filename` is idempotent, its output always matches
`^[A-Za-z0-9._-]+$`, and `""` and `"https://"` both map to the literal
fallback `"screenshot"`. -/
theorem sanitize_filename_spec :
    (∀ s : String, sanitize_filename (sanitize_filename s) = sanitize_filename s) ∧
    (∀ s : String, matchesSafeClass (sanitize_filename s)) ∧
    sanitize_filename "" = "screenshot" ∧
    sanitize_filename "https://" = "screenshot" := by
  refine ⟨fun s => ?_, fun s => sanitizeL_safe s.data, rfl, rfl⟩
  show (⟨sanitizeL (sanitizeL s.data)⟩ : String) = ⟨sanitizeL s.data⟩
  rw [sanitizeL_idem]

/-- Claim C9: whenever the extracted `name="description"` value is empty
(tag absent, content attribute absent, empty, or whitespace-only), the
description field equals the `og:description` value. -/
theorem description_fallback_on_empty (d : Doc) (url : String)
    (h : get_meta_by_name d "description" = "") :
    (extract_meta d url).lookup "description" =
      some (get_meta_by_property d "og:description") := by
  have hr : (extract_meta d url).lookup "description" =
      some (if get_meta_by_name d "description" == "" then
              get_meta_by_property d "og:description"
            else get_meta_by_name d "description") := rfl
  rw [hr, h]
  simp

/-- Witness for C9: a `<meta name="description">` with no content attribute
still falls back to the og:description value. -/
theorem description_fallback_on_empty_witness :
    (extract_meta exNoContentDesc "u").lookup "description" =
      some (get_meta_by_property exNoContentDesc "og:description") :=
  description_fallback_on_empty exNoContentDesc "u" rfl

/-- Claim C10: the extractor uses the content of the first matching meta tag
(by `name` or by `property`) in document order, and appending later
duplicate tags never changes the result. -/
theorem first_meta_tag_wins (d : Doc) (n p : String) (t u : Tag) :
    (d.allTags.find? (metaNameIs n) = some t →
      get_meta_by_name d n = pyStrip ((t.getAttr "content").getD "") ∧
      ∀ extra : List Tag,
        get_meta_by_name ⟨d.headTags, d.bodyTags ++ extra⟩ n = get_meta_by_name d n) ∧
    (d.allTags.find? (metaPropIs p) = some u →
      get_meta_by_property d p = pyStrip ((u.getAttr "content").getD "") ∧
      ∀ extra : List Tag,
        get_meta_by_property ⟨d.headTags, d.bodyTags ++ extra⟩ p = get_meta_by_property d p) := by
  have hall : ∀ extra : List Tag,
      Doc.allTags ⟨d.headTags, d.bodyTags ++ extra⟩ = d.allTags ++ extra := by
    intro extra
    simp [Doc.allTags]
  constructor
  · intro h
    refine ⟨by rw [get_meta_by_name, h], fun extra => ?_⟩
    rw [get_meta_by_name, get_meta_by_name, hall, List.find?_append, h]
    rfl
  · intro h
    refine ⟨by rw [get_meta_by_property, h], fun extra => ?_⟩
    rw [get_meta_by_property, get_meta_by_property, hall, List.find?_append, h]
    rfl

/-- Witness for C10: duplicated description and og:title metas — the first
of each wins and an appended third copy changes nothing. -/
theorem first_meta_tag_wins_witness :
    get_meta_by_name exDupMeta "description" = "first" ∧
    get_meta_by_name ⟨exDupMeta.headTags, exDupMeta.bodyTags ++ [dupTagExtra]⟩ "description"
      = get_meta_by_name exDupMeta "description" ∧
    get_meta_by_property exDupMeta "og:title" = "tfirst" ∧
    get_meta_by_property ⟨exDupMeta.headTags, exDupMeta.bodyTags ++ [dupTagExtra]⟩ "og:title"
      = get_meta_by_property exDupMeta "og:title" := by
  have hn := (first_meta_tag_wins exDupMeta "description" "og:title"
      (mkTag "meta" [("name", "description"), ("content", "first")] none)
      (mkTag "meta" [("property", "og:title"), ("content", "tfirst")] none)).1 rfl
  have hp := (first_meta_tag_wins exDupMeta "description" "og:title"
      (mkTag "meta" [("name", "description"), ("content", "first")] none)
      (mkTag "meta" [("property", "og:title"), ("content", "tfirst")] none)).2 rfl
  exact ⟨hn.1, hn.2 [dupTagExtra], hp.1, hp.2 [dupTagExtra]⟩

end SeoExtractor
